import Mathlib

/-! The filter-policy bridge of gorocksdb (`filter_policy.go`).

A shallow embedding of `filter_policy.go`: the package-level handler registry
(`filterHandlers`, `filterNextId`), the constructors `NewFilterPolicy`,
`NewBloomFilter`, `NewNativeFilterPolicy`, the method `Destroy`, and the three
exported callbacks `gorocksdb_filterpolicy_create_filter`,
`gorocksdb_filterpolicy_key_may_match` and `gorocksdb_filterpolicy_name`.

Modelling conventions.

* Go code that may panic returns a `GoResult`; a panic is a value of the result,
  so "the panic leaves the function" is the equation `f x = GoResult.panic v`.
* The package-level variables and the record of the calls made so far form the
  `World`, which every operation threads explicitly.
* A Go `int` is a Lean `Int`.  The conversions to C types are written out:
  `toCInt` narrows to 32 bits, `toSizeT` reinterprets as unsigned.  The counter
  `filterNextId` is never wrapped: it grows by one per registration and every
  registration leaves a live map entry, so the 64-bit limit is out of reach of
  any process.
* The C side (`gorocksdb.c`, `rocksdb/c.h`) and the helpers `charToByte`,
  `byteToChar`, `boolToChar`, `stringToChar` live outside `filter_policy.go`;
  they are parameters (`NativeLayer`, `BufferAdapter`).
-/

namespace Gorocksdb

/-! ## Values -/

/-- A Go `[]byte`. -/
abbrev Bytes := List UInt8

/-- Outcome of a Go call: it returns a value or it panics with a message. -/
inductive GoResult (α : Type) where
  | ret (a : α)
  | panic (v : String)
deriving DecidableEq, Repr

/-- Interface `FilterPolicyHandler`: the three methods a user type supplies.  Each may panic. -/
structure FilterPolicyHandler where
  CreateFilter : List Bytes → GoResult Bytes
  KeyMayMatch : Bytes → Bytes → GoResult Bool
  Name : GoResult String

/-- A value of interface type `FilterPolicyHandler`; `none` is the nil interface. -/
abbrev HandlerValue := Option FilterPolicyHandler

/-- A Go `map[int]FilterPolicyHandler`, as the list of its entries (one per key). -/
abbrev HandlerMap := List (Int × HandlerValue)

/-- Index expression `m[k]`: the stored value, or the zero value (nil) when `k` is absent. -/
def mapIndex : HandlerMap → Int → HandlerValue
  | [], _ => none
  | (k0, v) :: rest, k => if k0 = k then v else mapIndex rest k

/-- Whether `k` is a key of `m` (the `ok` of `_, ok := m[k]`). -/
def mapHasKey : HandlerMap → Int → Bool
  | [], _ => false
  | (k0, _) :: rest, k => if k0 = k then true else mapHasKey rest k

/-- Assignment `m[k] = v`: overwrite the entry of `k` if there is one, add an entry otherwise. -/
def mapAssign : HandlerMap → Int → HandlerValue → HandlerMap
  | [], k, v => [(k, v)]
  | (k0, v0) :: rest, k, v => if k0 = k then (k, v) :: rest else (k0, v0) :: mapAssign rest k v

/-- The value `len(m)`. -/
def mapLen (m : HandlerMap) : Nat := m.length

/-- Conversion `C.int(x)` of a Go `int`: keep the low 32 bits, read as signed. -/
def toCInt (x : Int) : Int := (x + 2147483648) % 4294967296 - 2147483648

/-- Conversion `C.size_t(x)` of a Go `int` (64 bits): a non-negative `int` is kept, a negative
one is read as its two's complement. -/
def toSizeT (x : Int) : Nat := if 0 ≤ x then x.toNat else (x + 18446744073709551616).toNat

/-- A value of the C type `int`, as received in a parameter of type `C.int`. -/
structure CInt where
  val : Int
  lo : -2147483648 ≤ val
  hi : val < 2147483648

/-- A `*C.rocksdb_filterpolicy_t`; `0` is the nil pointer. -/
abbrev PolicyPtr := Nat

/-- The nil pointer. -/
def nilPtr : PolicyPtr := 0

/-- Struct `FilterPolicy`: the wrapped native pointer. -/
structure FilterPolicy where
  c : PolicyPtr
deriving DecidableEq, Repr

/-- A call that leaves `filter_policy.go`: into the C library or into a handler method. -/
inductive Event where
  | gorocksdb_filterpolicy_create (id : Nat)
  | rocksdb_filterpolicy_create_bloom (bitsPerKey : Int)
  | rocksdb_filterpolicy_destroy (c : PolicyPtr)
  | gorocksdb_get_char_at_index (i : Int)
  | gorocksdb_get_int_at_index (i : Int)
  | handlerCreateFilter (keys : List Bytes)
  | handlerKeyMayMatch (key filter : Bytes)
  | handlerName
deriving DecidableEq, Repr

/-- The C functions `filter_policy.go` calls.  The two constructors see the calls made before
them, so they may hand out a different pointer each time.  `Ptr` is `*C.char`, `Keys` is
`**C.char`, `Lens` is `*C.size_t`. -/
structure NativeLayer (Ptr Keys Lens : Type) where
  gorocksdb_filterpolicy_create : List Event → Nat → PolicyPtr
  rocksdb_filterpolicy_create_bloom : List Event → Int → PolicyPtr
  gorocksdb_get_char_at_index : Keys → Int → Ptr
  gorocksdb_get_int_at_index : Lens → Int → Nat

/-- The marshalling helpers of the package that `filter_policy.go` calls. -/
structure BufferAdapter (Ptr : Type) where
  charToByte : Ptr → Nat → Bytes
  byteToChar : Bytes → Ptr
  boolToChar : Bool → Nat
  stringToChar : String → Ptr

/-- The package-level variables `filterHandlers`, `filterNextId`, and the calls made so far. -/
structure World where
  filterHandlers : HandlerMap
  filterNextId : Int
  trace : List Event

/-- The state at program start: `make(map[int]FilterPolicyHandler)`, `filterNextId` zero. -/
def World.init : World := { filterHandlers := [], filterNextId := 0, trace := [] }

/-! ## Constructors and `Destroy` -/

/-- Function `NewNativeFilterPolicy`: `&FilterPolicy{c}`. -/
def NewNativeFilterPolicy (c : PolicyPtr) : FilterPolicy := { c := c }

/-- Function `NewFilterPolicy`: bump the counter, store the handler under the new id, and wrap
the native policy created for that id. -/
def NewFilterPolicy {Ptr Keys Lens : Type} (N : NativeLayer Ptr Keys Lens)
    (handler : HandlerValue) (w : World) : FilterPolicy × World :=
  let filterNextId := w.filterNextId + 1
  let id := filterNextId
  let filterHandlers := mapAssign w.filterHandlers id handler
  let c := N.gorocksdb_filterpolicy_create w.trace (toSizeT id)
  (NewNativeFilterPolicy c,
    { filterHandlers := filterHandlers
      filterNextId := filterNextId
      trace := w.trace ++ [Event.gorocksdb_filterpolicy_create (toSizeT id)] })

/-- Function `NewBloomFilter`: wrap the native Bloom policy for `C.int(bitsPerKey)`. -/
def NewBloomFilter {Ptr Keys Lens : Type} (N : NativeLayer Ptr Keys Lens)
    (bitsPerKey : Int) (w : World) : FilterPolicy × World :=
  let c := N.rocksdb_filterpolicy_create_bloom w.trace (toCInt bitsPerKey)
  (NewNativeFilterPolicy c,
    { w with trace := w.trace ++ [Event.rocksdb_filterpolicy_create_bloom (toCInt bitsPerKey)] })

/-- Method `Destroy`: release `self.c` natively, then set `self.c = nil`. -/
def FilterPolicy.Destroy (self : FilterPolicy) (w : World) : FilterPolicy × World :=
  ({ self with c := nilPtr },
    { w with trace := w.trace ++ [Event.rocksdb_filterpolicy_destroy self.c] })

/-! ## The exported callbacks -/

/-- What a callback leaves behind: its result and the calls it made, in order. -/
structure BridgeOut (α : Type) where
  result : GoResult α
  events : List Event

/-- What `gorocksdb_filterpolicy_create_filter` leaves behind: as `BridgeOut`, and the content
of the cell `*cDstLen` when the call ends. -/
structure CreateFilterOut (Ptr : Type) where
  result : GoResult Ptr
  dstLen : Nat
  events : List Event

/-- The message of the runtime panic raised by a method call on a nil interface. -/
def nilDereference : String := "runtime error: invalid memory address or nil pointer dereference"

/-- The message of the runtime panic raised by `make` with a negative length. -/
def makesliceLen : String := "runtime error: makeslice: len out of range"

/-- The loop `for i, l := 0, int(cNumKeys); i < l; i++` of
`gorocksdb_filterpolicy_create_filter`, from the loop variable `i` on.  Each iteration reads
the `i`-th key pointer and key length natively and stores the decoded key in `keys[i]`.  The
first argument bounds the number of iterations; `l - i` of them end the loop. -/
def fillKeys {Ptr Keys Lens : Type} (A : BufferAdapter Ptr) (N : NativeLayer Ptr Keys Lens)
    (cKeys : Keys) (cKeysLen : Lens) (l : Int) :
    Nat → Int → List Bytes → List Event → List Bytes × List Event
  | 0, _, keys, events => (keys, events)
  | fuel + 1, i, keys, events =>
    if i < l then
      let cKey := N.gorocksdb_get_char_at_index cKeys (toCInt i)
      let cKeyLen := N.gorocksdb_get_int_at_index cKeysLen (toCInt i)
      fillKeys A N cKeys cKeysLen l fuel (i + 1)
        (keys.set i.toNat (A.charToByte cKey cKeyLen))
        (events ++ [Event.gorocksdb_get_char_at_index (toCInt i),
                    Event.gorocksdb_get_int_at_index (toCInt i)])
    else (keys, events)

/-- Callback `gorocksdb_filterpolicy_create_filter`.  `cDstLen` is the content of the output
cell before the call. -/
def gorocksdb_filterpolicy_create_filter {Ptr Keys Lens : Type} (A : BufferAdapter Ptr)
    (N : NativeLayer Ptr Keys Lens) (w : World) (id : Int) (cKeys : Keys) (cKeysLen : Lens)
    (cNumKeys : CInt) (cDstLen : Nat) : CreateFilterOut Ptr :=
  let l := cNumKeys.val
  if l < 0 then
    { result := GoResult.panic makesliceLen, dstLen := cDstLen, events := [] }
  else
    let filled := fillKeys A N cKeys cKeysLen l l.toNat 0 (List.replicate l.toNat []) []
    let keys := filled.1
    match mapIndex w.filterHandlers id with
    | none => { result := GoResult.panic nilDereference, dstLen := cDstLen, events := filled.2 }
    | some handler =>
      let events := filled.2 ++ [Event.handlerCreateFilter keys]
      match handler.CreateFilter keys with
      | GoResult.panic v => { result := GoResult.panic v, dstLen := cDstLen, events := events }
      | GoResult.ret dst =>
        { result := GoResult.ret (A.byteToChar dst)
          dstLen := toSizeT (dst.length : Int)
          events := events }

/-- Callback `gorocksdb_filterpolicy_key_may_match`. -/
def gorocksdb_filterpolicy_key_may_match {Ptr : Type} (A : BufferAdapter Ptr) (w : World)
    (id : Int) (cKey : Ptr) (cKeyLen : Nat) (cFilter : Ptr) (cFilterLen : Nat) :
    BridgeOut Nat :=
  let key := A.charToByte cKey cKeyLen
  let filter := A.charToByte cFilter cFilterLen
  match mapIndex w.filterHandlers id with
  | none => { result := GoResult.panic nilDereference, events := [] }
  | some handler =>
    match handler.KeyMayMatch key filter with
    | GoResult.panic v =>
      { result := GoResult.panic v, events := [Event.handlerKeyMayMatch key filter] }
    | GoResult.ret isMatch =>
      { result := GoResult.ret (A.boolToChar isMatch)
        events := [Event.handlerKeyMayMatch key filter] }

/-- Callback `gorocksdb_filterpolicy_name`. -/
def gorocksdb_filterpolicy_name {Ptr : Type} (A : BufferAdapter Ptr) (w : World) (id : Int) :
    BridgeOut Ptr :=
  match mapIndex w.filterHandlers id with
  | none => { result := GoResult.panic nilDereference, events := [] }
  | some handler =>
    match handler.Name with
    | GoResult.panic v => { result := GoResult.panic v, events := [Event.handlerName] }
    | GoResult.ret name =>
      { result := GoResult.ret (A.stringToChar name), events := [Event.handlerName] }

/-! ## Sequences of operations -/

/-- One call into the package: by the application (the two constructors, `Destroy`) or by the
storage engine (the three callbacks). -/
inductive Op (Ptr Keys Lens : Type) where
  | newFilterPolicy (handler : HandlerValue)
  | newBloomFilter (bitsPerKey : Int)
  | destroy (p : FilterPolicy)
  | createFilter (id : Int) (cKeys : Keys) (cKeysLen : Lens) (cNumKeys : CInt) (cDstLen : Nat)
  | keyMayMatch (id : Int) (cKey : Ptr) (cKeyLen : Nat) (cFilter : Ptr) (cFilterLen : Nat)
  | name (id : Int)

/-- The world after one operation.  A callback only adds the calls it made to the record. -/
def step {Ptr Keys Lens : Type} (A : BufferAdapter Ptr) (N : NativeLayer Ptr Keys Lens)
    (w : World) : Op Ptr Keys Lens → World
  | Op.newFilterPolicy handler => (NewFilterPolicy N handler w).2
  | Op.newBloomFilter bitsPerKey => (NewBloomFilter N bitsPerKey w).2
  | Op.destroy p => (p.Destroy w).2
  | Op.createFilter id cKeys cKeysLen cNumKeys cDstLen =>
    { w with trace := w.trace ++
        (gorocksdb_filterpolicy_create_filter A N w id cKeys cKeysLen cNumKeys cDstLen).events }
  | Op.keyMayMatch id cKey cKeyLen cFilter cFilterLen =>
    { w with trace := w.trace ++
        (gorocksdb_filterpolicy_key_may_match A w id cKey cKeyLen cFilter cFilterLen).events }
  | Op.name id =>
    { w with trace := w.trace ++ (gorocksdb_filterpolicy_name A w id).events }

/-- The world after a sequence of operations, run in order. -/
def run {Ptr Keys Lens : Type} (A : BufferAdapter Ptr) (N : NativeLayer Ptr Keys Lens)
    (w : World) (ops : List (Op Ptr Keys Lens)) : World :=
  ops.foldl (step A N) w

/-- The handlers passed to the `NewFilterPolicy` calls of a sequence, in call order. -/
def registered {Ptr Keys Lens : Type} : List (Op Ptr Keys Lens) → List HandlerValue
  | [] => []
  | Op.newFilterPolicy handler :: ops => handler :: registered ops
  | _ :: ops => registered ops

/-- The ids handed to `gorocksdb_filterpolicy_create` in a record of calls, in call order. -/
def createdIds : List Event → List Nat
  | [] => []
  | Event.gorocksdb_filterpolicy_create id :: t => id :: createdIds t
  | _ :: t => createdIds t

/-- The map that holds `hs`, in order, under the consecutive ids `start`, `start + 1`, ... -/
def registryFrom : Int → List HandlerValue → HandlerMap
  | _, [] => []
  | start, h :: hs => (start, h) :: registryFrom (start + 1) hs

/-- The contract of `FilterPolicyHandler`: a filter built from `keys` matches every key of
`keys`. -/
def SatisfiesContract (h : FilterPolicyHandler) : Prop :=
  ∀ (keys : List Bytes) (k : Bytes), k ∈ keys →
    ∃ filter, h.CreateFilter keys = GoResult.ret filter ∧
      h.KeyMayMatch k filter = GoResult.ret true

/-- The world reached from program start by a sequence of operations. -/
def reach {Ptr Keys Lens : Type} (A : BufferAdapter Ptr) (N : NativeLayer Ptr Keys Lens)
    (ops : List (Op Ptr Keys Lens)) : World :=
  run A N World.init ops

/-- The ids `1, 2, ..., n`. -/
def idsUpTo (n : Nat) : List Nat := (List.range n).map (fun i => i + 1)

/-- The registry holds exactly the handlers `hs`, in order, under the ids `1, ..., hs.length`,
the counter equals their number, and these ids were handed to the native constructor. -/
def Registered (hs : List HandlerValue) (w : World) : Prop :=
  w.filterHandlers = registryFrom 1 hs ∧ w.filterNextId = (hs.length : Int) ∧
    createdIds w.trace = idsUpTo hs.length

/-- The keys a native array of `n` (pointer, length) pairs holds: the decoded copy of the
`i`-th buffer at position `i`, for `i = 0, ..., n - 1`. -/
def nativeKeys {Ptr Keys Lens : Type} (A : BufferAdapter Ptr) (N : NativeLayer Ptr Keys Lens)
    (cKeys : Keys) (cKeysLen : Lens) (n : Nat) : List Bytes :=
  (List.range n).map (fun (i : Nat) =>
    A.charToByte (N.gorocksdb_get_char_at_index cKeys (i : Int))
      (N.gorocksdb_get_int_at_index cKeysLen (i : Int)))

/-- The native reads of `n` keys in index order: pointer `i`, then length `i`. -/
def nativeReads (n : Nat) : List Event :=
  (List.range n).flatMap (fun (i : Nat) =>
    [Event.gorocksdb_get_char_at_index (i : Int), Event.gorocksdb_get_int_at_index (i : Int)])

/-! ## Concrete inputs -/

/-- Modelled from the spec: the Buffer Adapter (the helpers `charToByte`, `byteToChar`,
`boolToChar`, `stringToChar`, which are not in `filter_policy.go`).  A native buffer is
identified with the bytes stored from its address on; decoding copies the first `len` of them,
true is `1`, a string is encoded with a terminating zero byte. -/
def specAdapter : BufferAdapter Bytes where
  charToByte := fun data len => data.take len
  byteToChar := fun b => b
  boolToChar := fun b => if b then 1 else 0
  stringToChar := fun s => s.data.flatMap String.utf8EncodeChar ++ [0]

/-- Modelled from the spec: the native boundary (`gorocksdb.c`, not under the sources).  The
two index helpers return the element at the index; a constructor returns a pointer that is
not nil and was not handed out before. -/
def specNative : NativeLayer Bytes (List Bytes) (List Nat) where
  gorocksdb_filterpolicy_create := fun before _ => before.length + 1
  rocksdb_filterpolicy_create_bloom := fun before _ => before.length + 1
  gorocksdb_get_char_at_index := fun list index => list.getD index.toNat []
  gorocksdb_get_int_at_index := fun list index => list.getD index.toNat 0

/-- A sample handler named `test_policy`: the filter is the list of the first bytes of the
keys, and a key may match when its first byte is in the filter. -/
def sampleHandler : FilterPolicyHandler where
  CreateFilter := fun keys => GoResult.ret (keys.map (fun k => k.headD 0))
  KeyMayMatch := fun key filter => GoResult.ret (filter.contains (key.headD 0))
  Name := GoResult.ret "test_policy"

/-- A sample handler all of whose methods panic. -/
def faultyHandler : FilterPolicyHandler where
  CreateFilter := fun _ => GoResult.panic "create filter failed"
  KeyMayMatch := fun _ _ => GoResult.panic "key may match failed"
  Name := GoResult.panic "name failed"

/-- The C int `3`. -/
def three : CInt := { val := 3, lo := by decide, hi := by decide }

/-- The world after `NewFilterPolicy(sampleHandler)` at program start: id `1` is registered. -/
def sampleWorld : World := (NewFilterPolicy specNative (some sampleHandler) World.init).2

/-- The world after `NewFilterPolicy(faultyHandler)` at program start: id `1` is registered. -/
def faultyWorld : World := (NewFilterPolicy specNative (some faultyHandler) World.init).2

/-! ## The map -/

theorem mapAssign_fresh (m : HandlerMap) (k : Int) (v : HandlerValue)
    (hk : mapHasKey m k = false) : mapAssign m k v = m ++ [(k, v)] := by
  induction m with
  | nil => rfl
  | cons e rest ih =>
    obtain ⟨k0, v0⟩ := e
    by_cases hkk : k0 = k
    · simp [mapHasKey, hkk] at hk
    · simp only [mapHasKey, hkk, if_false] at hk
      simp [mapAssign, hkk, ih hk]

theorem mapHasKey_append (m1 m2 : HandlerMap) (k : Int) :
    mapHasKey (m1 ++ m2) k = (mapHasKey m1 k || mapHasKey m2 k) := by
  induction m1 with
  | nil => simp [mapHasKey]
  | cons e rest ih =>
    obtain ⟨k0, v0⟩ := e
    by_cases hkk : k0 = k <;> simp [mapHasKey, hkk, ih]

theorem mapIndex_append_left (m1 m2 : HandlerMap) (k : Int) (hk : mapHasKey m1 k = true) :
    mapIndex (m1 ++ m2) k = mapIndex m1 k := by
  induction m1 with
  | nil => simp [mapHasKey] at hk
  | cons e rest ih =>
    obtain ⟨k0, v0⟩ := e
    by_cases hkk : k0 = k
    · simp [mapIndex, hkk]
    · simp only [mapHasKey, hkk, if_false] at hk
      simp [mapIndex, hkk, ih hk]

theorem registryFrom_append (start : Int) (xs ys : List HandlerValue) :
    registryFrom start (xs ++ ys) =
      registryFrom start xs ++ registryFrom (start + (xs.length : Int)) ys := by
  induction xs generalizing start with
  | nil => simp [registryFrom]
  | cons x xs ih =>
    have hlen : start + 1 + (xs.length : Int) = start + ((xs.length + 1 : Nat) : Int) := by
      push_cast; ring
    show (start, x) :: registryFrom (start + 1) (xs ++ ys) = _
    rw [ih (start + 1), hlen]
    rfl

theorem mapHasKey_registryFrom (start : Int) (hs : List HandlerValue) (k : Int) :
    mapHasKey (registryFrom start hs) k = true ↔ start ≤ k ∧ k < start + (hs.length : Int) := by
  induction hs generalizing start with
  | nil =>
    simp only [registryFrom, mapHasKey, List.length_nil, Nat.cast_zero]
    constructor
    · intro hf; cases hf
    · intro hk; omega
  | cons h hs ih =>
    by_cases hkk : start = k
    · simp only [registryFrom, mapHasKey, hkk, if_true, List.length_cons, true_iff]
      push_cast
      omega
    · simp only [registryFrom, mapHasKey, hkk, if_false, ih, List.length_cons]
      push_cast
      omega

theorem mapIndex_registryFrom (start : Int) (hs : List HandlerValue) (i : Nat) :
    mapIndex (registryFrom start hs) (start + (i : Int)) = hs.getD i none := by
  induction hs generalizing start i with
  | nil => simp [registryFrom, mapIndex]
  | cons h hs ih =>
    cases i with
    | zero => simp [registryFrom, mapIndex]
    | succ i =>
      have hne : ¬ start = start + ((i + 1 : Nat) : Int) := by push_cast; omega
      have hidx : start + ((i + 1 : Nat) : Int) = start + 1 + (i : Int) := by push_cast; ring
      have hne2 : ¬ start = start + 1 + (i : Int) := by omega
      simp only [registryFrom, mapIndex, hidx, hne2, if_false, ih, List.getD_cons_succ]

theorem registryFrom_keys (start : Int) (hs : List HandlerValue) :
    (registryFrom start hs).map Prod.fst =
      (List.range hs.length).map (fun (i : Nat) => start + (i : Int)) := by
  induction hs generalizing start with
  | nil => rfl
  | cons h hs ih =>
    simp only [registryFrom, List.map_cons, List.length_cons, List.range_succ_eq_map,
      List.map_map, ih, Nat.cast_zero, add_zero, List.cons.injEq, true_and]
    apply List.map_congr_left
    intro i _
    simp only [Function.comp, Nat.cast_succ]
    ring

theorem registryFrom_length (start : Int) (hs : List HandlerValue) :
    (registryFrom start hs).length = hs.length := by
  induction hs generalizing start with
  | nil => rfl
  | cons h hs ih => simp [registryFrom, ih]

/-! ## The record of calls -/

theorem createdIds_append (t1 t2 : List Event) :
    createdIds (t1 ++ t2) = createdIds t1 ++ createdIds t2 := by
  induction t1 with
  | nil => rfl
  | cons e t ih => cases e <;> simp [createdIds, ih]

theorem createdIds_fillKeys {Ptr Keys Lens : Type} (A : BufferAdapter Ptr)
    (N : NativeLayer Ptr Keys Lens) (cKeys : Keys) (cKeysLen : Lens) (l : Int) (fuel : Nat)
    (i : Int) (keys : List Bytes) (events : List Event) :
    createdIds (fillKeys A N cKeys cKeysLen l fuel i keys events).2 = createdIds events := by
  induction fuel generalizing i keys events with
  | zero => rfl
  | succ fuel ih =>
    simp only [fillKeys]
    by_cases hil : i < l
    · simp only [hil, if_true]
      rw [ih, createdIds_append]
      simp [createdIds]
    · simp only [hil, if_false]

theorem createdIds_create_filter {Ptr Keys Lens : Type} (A : BufferAdapter Ptr)
    (N : NativeLayer Ptr Keys Lens) (w : World) (id : Int) (cKeys : Keys) (cKeysLen : Lens)
    (cNumKeys : CInt) (cDstLen : Nat) :
    createdIds
      (gorocksdb_filterpolicy_create_filter A N w id cKeys cKeysLen cNumKeys cDstLen).events
      = [] := by
  unfold gorocksdb_filterpolicy_create_filter
  by_cases hl : cNumKeys.val < 0
  · simp [hl, createdIds]
  · simp only [hl, if_false]
    cases hidx : mapIndex w.filterHandlers id with
    | none => simp [createdIds_fillKeys, createdIds]
    | some handler =>
      cases hcf : handler.CreateFilter
          (fillKeys A N cKeys cKeysLen cNumKeys.val cNumKeys.val.toNat 0
            (List.replicate cNumKeys.val.toNat []) []).1 <;>
        simp [hcf, createdIds_append, createdIds_fillKeys, createdIds]

theorem createdIds_key_may_match {Ptr : Type} (A : BufferAdapter Ptr) (w : World) (id : Int)
    (cKey : Ptr) (cKeyLen : Nat) (cFilter : Ptr) (cFilterLen : Nat) :
    createdIds
      (gorocksdb_filterpolicy_key_may_match A w id cKey cKeyLen cFilter cFilterLen).events
      = [] := by
  unfold gorocksdb_filterpolicy_key_may_match
  cases hidx : mapIndex w.filterHandlers id with
  | none => simp [createdIds]
  | some handler =>
    cases hm : handler.KeyMayMatch (A.charToByte cKey cKeyLen)
        (A.charToByte cFilter cFilterLen) <;>
      simp [hm, createdIds]

theorem createdIds_name {Ptr : Type} (A : BufferAdapter Ptr) (w : World) (id : Int) :
    createdIds (gorocksdb_filterpolicy_name A w id).events = [] := by
  unfold gorocksdb_filterpolicy_name
  cases hidx : mapIndex w.filterHandlers id with
  | none => simp [createdIds]
  | some handler => cases hn : handler.Name <;> simp [hn, createdIds]

theorem toSizeT_natCast (n : Nat) : toSizeT (n : Int) = n := by
  simp [toSizeT]

theorem idsUpTo_succ (n : Nat) : idsUpTo (n + 1) = idsUpTo n ++ [n + 1] := by
  simp [idsUpTo, List.range_succ]

/-! ## The registry along a run -/

theorem registered_append {Ptr Keys Lens : Type} (ops1 ops2 : List (Op Ptr Keys Lens)) :
    registered (ops1 ++ ops2) = registered ops1 ++ registered ops2 := by
  induction ops1 with
  | nil => rfl
  | cons op ops ih => cases op <;> simp [registered, ih]

theorem registered_newFilterPolicy {Ptr Keys Lens : Type} (N : NativeLayer Ptr Keys Lens)
    (hs : List HandlerValue) (w : World) (h : HandlerValue) (hw : Registered hs w) :
    Registered (hs ++ [h]) (NewFilterPolicy N h w).2 := by
  obtain ⟨hmap, hnext, hids⟩ := hw
  have hfresh : mapHasKey (registryFrom 1 hs) ((hs.length : Int) + 1) = false := by
    cases hc : mapHasKey (registryFrom 1 hs) ((hs.length : Int) + 1) with
    | false => rfl
    | true =>
      have hr := (mapHasKey_registryFrom 1 hs ((hs.length : Int) + 1)).mp hc
      omega
  have hsz : toSizeT ((hs.length : Int) + 1) = hs.length + 1 := by
    have := toSizeT_natCast (hs.length + 1)
    push_cast at this
    exact this
  refine ⟨?_, ?_, ?_⟩
  · simp only [NewFilterPolicy, hmap, hnext]
    rw [mapAssign_fresh _ _ _ hfresh, registryFrom_append]
    simp only [registryFrom]
    rw [add_comm (1 : Int)]
  · simp only [NewFilterPolicy, hnext, List.length_append, List.length_singleton]
    push_cast
    rfl
  · simp only [NewFilterPolicy, hnext, createdIds_append, hids, List.length_append,
      List.length_singleton, idsUpTo_succ, hsz]
    rfl

theorem registered_step {Ptr Keys Lens : Type} (A : BufferAdapter Ptr)
    (N : NativeLayer Ptr Keys Lens) (hs : List HandlerValue) (w : World)
    (op : Op Ptr Keys Lens) (hw : Registered hs w) :
    Registered (hs ++ registered [op]) (step A N w op) := by
  cases op with
  | newFilterPolicy handler => exact registered_newFilterPolicy N hs w handler hw
  | newBloomFilter bitsPerKey =>
    obtain ⟨hmap, hnext, hids⟩ := hw
    refine ⟨?_, ?_, ?_⟩ <;>
      simp [step, NewBloomFilter, registered, hmap, hnext, hids, createdIds_append, createdIds]
  | destroy p =>
    obtain ⟨hmap, hnext, hids⟩ := hw
    refine ⟨?_, ?_, ?_⟩ <;>
      simp [step, FilterPolicy.Destroy, registered, hmap, hnext, hids, createdIds_append,
        createdIds]
  | createFilter id cKeys cKeysLen cNumKeys cDstLen =>
    obtain ⟨hmap, hnext, hids⟩ := hw
    refine ⟨?_, ?_, ?_⟩ <;>
      simp [step, registered, hmap, hnext, hids, createdIds_append, createdIds_create_filter]
  | keyMayMatch id cKey cKeyLen cFilter cFilterLen =>
    obtain ⟨hmap, hnext, hids⟩ := hw
    refine ⟨?_, ?_, ?_⟩ <;>
      simp [step, registered, hmap, hnext, hids, createdIds_append, createdIds_key_may_match]
  | name id =>
    obtain ⟨hmap, hnext, hids⟩ := hw
    refine ⟨?_, ?_, ?_⟩ <;>
      simp [step, registered, hmap, hnext, hids, createdIds_append, createdIds_name]

theorem registered_run {Ptr Keys Lens : Type} (A : BufferAdapter Ptr)
    (N : NativeLayer Ptr Keys Lens) (ops : List (Op Ptr Keys Lens)) (hs : List HandlerValue)
    (w : World) (hw : Registered hs w) :
    Registered (hs ++ registered ops) (run A N w ops) := by
  induction ops generalizing hs w with
  | nil => simpa [run, registered] using hw
  | cons op ops ih =>
    have hstep := registered_step A N hs w op hw
    have hrest := ih (hs ++ registered [op]) (step A N w op) hstep
    have hsplit : registered (op :: ops) = registered [op] ++ registered ops :=
      registered_append [op] ops
    rw [hsplit, ← List.append_assoc]
    exact hrest

theorem registered_reach {Ptr Keys Lens : Type} (A : BufferAdapter Ptr)
    (N : NativeLayer Ptr Keys Lens) (ops : List (Op Ptr Keys Lens)) :
    Registered (registered ops) (reach A N ops) := by
  have hinit : Registered [] World.init := ⟨rfl, rfl, rfl⟩
  simpa [reach] using registered_run A N ops [] World.init hinit

theorem idsUpTo_pairwise (n : Nat) : List.Pairwise (fun a b => a < b) (idsUpTo n) := by
  unfold idsUpTo
  rw [List.pairwise_map]
  exact (List.pairwise_lt_range n).imp (fun hab => Nat.succ_lt_succ hab)

theorem newFilterPolicy_fresh {Ptr Keys Lens : Type} (A : BufferAdapter Ptr)
    (N : NativeLayer Ptr Keys Lens) (ops : List (Op Ptr Keys Lens)) :
    mapHasKey (reach A N ops).filterHandlers ((reach A N ops).filterNextId + 1) = false := by
  obtain ⟨hmap, hnext, _⟩ := registered_reach A N ops
  rw [hmap, hnext]
  cases hc : mapHasKey (registryFrom 1 (registered ops)) (((registered ops).length : Int) + 1) with
  | false => rfl
  | true =>
    have hr := (mapHasKey_registryFrom 1 _ _).mp hc
    omega

/-! ## Decoding the native key array -/

theorem take_succ_set {α : Type} (l : List α) (i : Nat) (a : α) (hi : i < l.length) :
    (l.set i a).take (i + 1) = l.take i ++ [a] := by
  induction l generalizing i with
  | nil => simp at hi
  | cons x xs ih =>
    cases i with
    | zero => simp
    | succ i =>
      have hi2 : i < xs.length := by simpa using hi
      simp [ih i hi2]

theorem toCInt_natCast (i : Nat) (hi : i < 2147483648) : toCInt (i : Int) = (i : Int) := by
  unfold toCInt
  omega

theorem fillKeys_eq {Ptr Keys Lens : Type} (A : BufferAdapter Ptr)
    (N : NativeLayer Ptr Keys Lens) (cKeys : Keys) (cKeysLen : Lens) (l : Int) (todo s : Nat)
    (keys : List Bytes) (events : List Event) (hl : l = ((s + todo : Nat) : Int))
    (hlen : keys.length = s + todo) (hb : s + todo ≤ 2147483648) :
    fillKeys A N cKeys cKeysLen l todo (s : Int) keys events =
      (keys.take s ++ (List.range' s todo).map (fun (i : Nat) =>
          A.charToByte (N.gorocksdb_get_char_at_index cKeys (i : Int))
            (N.gorocksdb_get_int_at_index cKeysLen (i : Int))),
        events ++ (List.range' s todo).flatMap (fun (i : Nat) =>
          [Event.gorocksdb_get_char_at_index (i : Int),
           Event.gorocksdb_get_int_at_index (i : Int)])) := by
  induction todo generalizing s keys events with
  | zero =>
    have hk : keys.take s = keys := List.take_of_length_le (by omega)
    simp [fillKeys, hk]
  | succ todo ih =>
    have hc : toCInt (s : Int) = (s : Int) := toCInt_natCast s (by omega)
    have hs : (s : Int) + 1 = ((s + 1 : Nat) : Int) := by push_cast; rfl
    have hlt : s < keys.length := by omega
    have hsl : (s : Int) < l := by rw [hl]; push_cast; omega
    simp only [fillKeys, hsl, if_true, hc, hs, Int.toNat_ofNat]
    rw [ih (s + 1) _ _ (by rw [hl]; push_cast; omega) (by simp; omega) (by omega),
      take_succ_set _ _ _ hlt, List.range'_succ]
    simp

theorem create_filter_eq {Ptr Keys Lens : Type} (A : BufferAdapter Ptr)
    (N : NativeLayer Ptr Keys Lens) (w : World) (id : Int) (h : FilterPolicyHandler)
    (cKeys : Keys) (cKeysLen : Lens) (cNumKeys : CInt) (cDstLen : Nat)
    (hreg : mapIndex w.filterHandlers id = some h) (hn : 0 ≤ cNumKeys.val) :
    gorocksdb_filterpolicy_create_filter A N w id cKeys cKeysLen cNumKeys cDstLen =
      match h.CreateFilter (nativeKeys A N cKeys cKeysLen cNumKeys.val.toNat) with
      | GoResult.panic v =>
        { result := GoResult.panic v
          dstLen := cDstLen
          events := nativeReads cNumKeys.val.toNat ++
            [Event.handlerCreateFilter (nativeKeys A N cKeys cKeysLen cNumKeys.val.toNat)] }
      | GoResult.ret dst =>
        { result := GoResult.ret (A.byteToChar dst)
          dstLen := dst.length
          events := nativeReads cNumKeys.val.toNat ++
            [Event.handlerCreateFilter (nativeKeys A N cKeys cKeysLen cNumKeys.val.toNat)] } := by
  have hbound : 0 + cNumKeys.val.toNat ≤ 2147483648 := by
    have := cNumKeys.hi
    omega
  have hfill := fillKeys_eq A N cKeys cKeysLen cNumKeys.val cNumKeys.val.toNat 0
    (List.replicate cNumKeys.val.toNat []) []
    (by rw [Nat.zero_add]; exact (Int.toNat_of_nonneg hn).symm) (by simp) hbound
  simp only [Nat.cast_zero, List.take_zero, List.nil_append, ← List.range_eq_range'] at hfill
  unfold gorocksdb_filterpolicy_create_filter
  simp only [not_lt.mpr hn, if_false, hfill, hreg]
  cases hcf : h.CreateFilter (List.map (fun (i : Nat) =>
      A.charToByte (N.gorocksdb_get_char_at_index cKeys (i : Int))
        (N.gorocksdb_get_int_at_index cKeysLen (i : Int)))
      (List.range cNumKeys.val.toNat)) with
  | ret dst => simp [nativeKeys, nativeReads, hcf, toSizeT_natCast]
  | panic v => simp [nativeKeys, nativeReads, hcf]

theorem binding_after_run {Ptr Keys Lens : Type} (A : BufferAdapter Ptr)
    (N : NativeLayer Ptr Keys Lens) (ops later : List (Op Ptr Keys Lens)) (h : HandlerValue) :
    mapIndex (run A N (NewFilterPolicy N h (reach A N ops)).2 later).filterHandlers
      ((reach A N ops).filterNextId + 1) = h := by
  have hreach := registered_reach A N ops
  have hnew := registered_newFilterPolicy N (registered ops) (reach A N ops) h hreach
  obtain ⟨hmap2, _, _⟩ := registered_run A N later _ _ hnew
  obtain ⟨_, hnext, _⟩ := hreach
  rw [hmap2, hnext, List.append_assoc, add_comm, mapIndex_registryFrom,
    List.getD_eq_getElem?_getD, List.getElem?_append_right (Nat.le_refl _)]
  simp

/-! ## The claims -/

/-- C1: from the initial state, after any sequence of operations `ops` that contains `n` calls
of `NewFilterPolicy`, the ids handed out are exactly `1, ..., n` in call order, strictly
increasing and pairwise distinct; the keys of `filterHandlers` are `1, ..., n`, the handler of
the `k`-th call sits under id `k`, `filterNextId = n` and `len(filterHandlers) = n`.  A
further `NewFilterPolicy` call (the `n + 1`-st) always returns, adds exactly the entry
`(n + 1, h)` and hands `n + 1` to the native constructor. -/
theorem newFilterPolicy_assigns_consecutive_ids {Ptr Keys Lens : Type} (A : BufferAdapter Ptr)
    (N : NativeLayer Ptr Keys Lens) (ops : List (Op Ptr Keys Lens)) :
    createdIds (reach A N ops).trace = idsUpTo (registered ops).length ∧
    List.Pairwise (fun a b => a < b) (createdIds (reach A N ops).trace) ∧
    (createdIds (reach A N ops).trace).Nodup ∧
    (reach A N ops).filterHandlers.map Prod.fst =
      (idsUpTo (registered ops).length).map (fun (i : Nat) => (i : Int)) ∧
    (∀ k : Nat, k < (registered ops).length →
      mapIndex (reach A N ops).filterHandlers ((k : Int) + 1) = (registered ops).getD k none) ∧
    (reach A N ops).filterNextId = ((registered ops).length : Int) ∧
    mapLen (reach A N ops).filterHandlers = (registered ops).length ∧
    (∀ h : HandlerValue,
      (NewFilterPolicy N h (reach A N ops)).2.filterHandlers =
        (reach A N ops).filterHandlers ++ [(((registered ops).length : Int) + 1, h)] ∧
      (NewFilterPolicy N h (reach A N ops)).2.trace =
        (reach A N ops).trace ++
          [Event.gorocksdb_filterpolicy_create ((registered ops).length + 1)]) := by
  have hreg := registered_reach A N ops
  obtain ⟨hmap, hnext, hids⟩ := hreg
  have hpw := idsUpTo_pairwise (registered ops).length
  refine ⟨hids, ?_, ?_, ?_, ?_, hnext, ?_, ?_⟩
  · rw [hids]; exact hpw
  · rw [hids]; exact hpw.imp (fun hab => Nat.ne_of_lt hab)
  · rw [hmap, registryFrom_keys]
    simp only [idsUpTo, List.map_map]
    apply List.map_congr_left
    intro i _
    simp only [Function.comp]
    push_cast
    ring
  · intro k _
    rw [hmap, add_comm, mapIndex_registryFrom]
  · rw [hmap]
    exact registryFrom_length 1 (registered ops)
  · intro h
    have hfresh := newFilterPolicy_fresh A N ops
    have hsz : toSizeT (((registered ops).length : Int) + 1) = (registered ops).length + 1 := by
      have := toSizeT_natCast ((registered ops).length + 1)
      push_cast at this
      exact this
    constructor
    · simp only [NewFilterPolicy]
      rw [mapAssign_fresh _ _ _ hfresh, hnext]
    · simp only [NewFilterPolicy, hnext, hsz]

/-- C2: in every reachable state `NewFilterPolicy(h)` stores `h` under the fresh id
`filterNextId + 1` and hands that same id to `gorocksdb_filterpolicy_create`, whose result it
wraps; the lookup of the id right afterwards gives `h`.  After any later sequence of
operations the lookup still gives `h`, every entry present is still present with the same
handler, and the ids handed out later are the following ones `id + 1, id + 2, ...`, so the
id is not used again. -/
theorem newFilterPolicy_binding_permanent {Ptr Keys Lens : Type} (A : BufferAdapter Ptr)
    (N : NativeLayer Ptr Keys Lens) (ops later : List (Op Ptr Keys Lens)) (h : HandlerValue) :
    (NewFilterPolicy N h (reach A N ops)).2.trace =
      (reach A N ops).trace ++
        [Event.gorocksdb_filterpolicy_create (toSizeT ((reach A N ops).filterNextId + 1))] ∧
    ((toSizeT ((reach A N ops).filterNextId + 1) : Nat) : Int) =
      (reach A N ops).filterNextId + 1 ∧
    (NewFilterPolicy N h (reach A N ops)).1.c =
      N.gorocksdb_filterpolicy_create (reach A N ops).trace
        (toSizeT ((reach A N ops).filterNextId + 1)) ∧
    mapHasKey (reach A N ops).filterHandlers ((reach A N ops).filterNextId + 1) = false ∧
    mapHasKey (NewFilterPolicy N h (reach A N ops)).2.filterHandlers
      ((reach A N ops).filterNextId + 1) = true ∧
    mapIndex (NewFilterPolicy N h (reach A N ops)).2.filterHandlers
      ((reach A N ops).filterNextId + 1) = h ∧
    mapIndex (run A N (NewFilterPolicy N h (reach A N ops)).2 later).filterHandlers
      ((reach A N ops).filterNextId + 1) = h ∧
    (∀ k : Int, mapHasKey (NewFilterPolicy N h (reach A N ops)).2.filterHandlers k = true →
      mapHasKey (run A N (NewFilterPolicy N h (reach A N ops)).2 later).filterHandlers k = true ∧
      mapIndex (run A N (NewFilterPolicy N h (reach A N ops)).2 later).filterHandlers k =
        mapIndex (NewFilterPolicy N h (reach A N ops)).2.filterHandlers k) ∧
    createdIds (run A N (NewFilterPolicy N h (reach A N ops)).2 later).trace =
      createdIds (NewFilterPolicy N h (reach A N ops)).2.trace ++
        (List.range (registered later).length).map
          (fun j => toSizeT ((reach A N ops).filterNextId + 1) + 1 + j) := by
  have hreach := registered_reach A N ops
  have hnew := registered_newFilterPolicy N (registered ops) (reach A N ops) h hreach
  have hlater := registered_run A N later _ _ hnew
  obtain ⟨hmap, hnext, hids⟩ := hreach
  obtain ⟨hmap1, hnext1, hids1⟩ := hnew
  obtain ⟨hmap2, hnext2, hids2⟩ := hlater
  have hsz : toSizeT (((registered ops).length : Int) + 1) = (registered ops).length + 1 := by
    have := toSizeT_natCast ((registered ops).length + 1)
    push_cast at this
    exact this
  have hfresh := newFilterPolicy_fresh A N ops
  have hidx : mapIndex (registryFrom 1 (registered ops ++ [h]))
      (((registered ops).length : Int) + 1) = h := by
    rw [add_comm, mapIndex_registryFrom]
    simp
  have hhas : mapHasKey (registryFrom 1 (registered ops ++ [h]))
      (((registered ops).length : Int) + 1) = true := by
    rw [mapHasKey_registryFrom]
    simp only [List.length_append, List.length_singleton]
    push_cast
    omega
  have hkeep : ∀ k : Int, mapHasKey (registryFrom 1 (registered ops ++ [h])) k = true →
      mapHasKey (registryFrom 1 (registered ops ++ [h] ++ registered later)) k = true ∧
      mapIndex (registryFrom 1 (registered ops ++ [h] ++ registered later)) k =
        mapIndex (registryFrom 1 (registered ops ++ [h])) k := by
    intro k hk
    rw [registryFrom_append 1 (registered ops ++ [h]) (registered later)]
    exact ⟨by rw [mapHasKey_append, hk]; rfl, mapIndex_append_left _ _ _ hk⟩
  refine ⟨rfl, ?_, rfl, hfresh, ?_, ?_, ?_, ?_, ?_⟩
  · rw [hnext, hsz]; push_cast; rfl
  · rw [hmap1, hnext]; exact hhas
  · rw [hmap1, hnext]; exact hidx
  · rw [hmap2, hnext, (hkeep _ hhas).2]; exact hidx
  · intro k hk
    rw [hmap1] at hk
    rw [hmap2, hmap1]
    exact hkeep k hk
  · rw [hids2, hids1, hnext, hsz]
    simp only [List.length_append, List.length_singleton, idsUpTo]
    rw [List.range_add, List.map_append, List.map_map]
    congr 1
    apply List.map_congr_left
    intro j _
    simp only [Function.comp]
    omega

theorem sampleHandler_contract : SatisfiesContract sampleHandler := by
  intro keys k hk
  refine ⟨keys.map (fun (key : Bytes) => key.headD 0), rfl, ?_⟩
  have hmem : k.headD 0 ∈ keys.map (fun (key : Bytes) => key.headD 0) :=
    List.mem_map_of_mem _ hk
  have hcontains : (keys.map (fun (key : Bytes) => key.headD 0)).contains (k.headD 0) = true :=
    List.elem_eq_true_of_mem hmem
  show GoResult.ret ((keys.map (fun (key : Bytes) => key.headD 0)).contains (k.headD 0))
    = GoResult.ret true
  rw [hcontains]

/-- C3: no false negatives through the bridge.  Let `h` be registered under `id` and satisfy
the handler contract, let the adapter round-trip byte sequences and encode `true` as a value
other than zero.  If the native key array holds the key list `K` and the native key buffer
holds a key `k` of `K`, then `gorocksdb_filterpolicy_create_filter` returns a buffer `F`, and
`gorocksdb_filterpolicy_key_may_match` called with `F` and the length that was written
through `cDstLen` returns a value other than zero. -/
theorem bridge_no_false_negatives {Ptr Keys Lens : Type} (A : BufferAdapter Ptr)
    (N : NativeLayer Ptr Keys Lens) (w : World) (id : Int) (h : FilterPolicyHandler)
    (cKeys : Keys) (cKeysLen : Lens) (cNumKeys : CInt) (cDstLen : Nat)
    (K : List Bytes) (k : Bytes) (cKey : Ptr) (cKeyLen : Nat)
    (hreg : mapIndex w.filterHandlers id = some h)
    (hcontract : SatisfiesContract h)
    (hround : ∀ b : Bytes, A.charToByte (A.byteToChar b) b.length = b)
    (htrue : A.boolToChar true ≠ 0)
    (hcount : cNumKeys.val = (K.length : Int))
    (hkeys : nativeKeys A N cKeys cKeysLen K.length = K)
    (hk : k ∈ K)
    (hkey : A.charToByte cKey cKeyLen = k) :
    ∃ F : Ptr,
      (gorocksdb_filterpolicy_create_filter A N w id cKeys cKeysLen cNumKeys cDstLen).result
        = GoResult.ret F ∧
      ∃ c : Nat,
        (gorocksdb_filterpolicy_key_may_match A w id cKey cKeyLen F
          (gorocksdb_filterpolicy_create_filter A N w id cKeys cKeysLen cNumKeys
            cDstLen).dstLen).result = GoResult.ret c ∧
        c ≠ 0 := by
  obtain ⟨filter, hcf, hmm⟩ := hcontract K k hk
  have hn : 0 ≤ cNumKeys.val := by rw [hcount]; exact Int.ofNat_nonneg _
  have hnat : cNumKeys.val.toNat = K.length := by rw [hcount]; exact Int.toNat_ofNat _
  have hout := create_filter_eq A N w id h cKeys cKeysLen cNumKeys cDstLen hreg hn
  rw [hnat, hkeys, hcf] at hout
  simp only at hout
  rw [hout]
  refine ⟨A.byteToChar filter, rfl, A.boolToChar true, ?_, htrue⟩
  simp only [gorocksdb_filterpolicy_key_may_match, hreg, hkey, hround, hmm]

/-- Witness of C3 on the keys `a`, `b`, `c` and the key `a`, with the sample handler. -/
theorem bridge_no_false_negatives_witness :
    mapIndex sampleWorld.filterHandlers 1 = some sampleHandler ∧
    ([97] : Bytes) ∈ ([[97], [98], [99]] : List Bytes) ∧
    ∃ F : Bytes,
      (gorocksdb_filterpolicy_create_filter specAdapter specNative sampleWorld 1
        [[97], [98], [99]] [1, 1, 1] three 0).result = GoResult.ret F ∧
      ∃ c : Nat,
        (gorocksdb_filterpolicy_key_may_match specAdapter sampleWorld 1 [97] 1 F
          (gorocksdb_filterpolicy_create_filter specAdapter specNative sampleWorld 1
            [[97], [98], [99]] [1, 1, 1] three 0).dstLen).result = GoResult.ret c ∧
        c ≠ 0 :=
  ⟨rfl, by decide,
    bridge_no_false_negatives specAdapter specNative sampleWorld 1 sampleHandler
      [[97], [98], [99]] [1, 1, 1] three 0 [[97], [98], [99]] [97] [97] 1
      rfl sampleHandler_contract (fun b => List.take_length b) (by decide) rfl (by decide)
      (by decide) rfl⟩

/-- Counterexample to C4: the handler registered under id `1` panics in `KeyMayMatch`; the
callback does not return the truth value for true, the panic leaves it. -/
theorem key_may_match_panic_not_caught :
    mapIndex faultyWorld.filterHandlers 1 = some faultyHandler ∧
    faultyHandler.KeyMayMatch (specAdapter.charToByte [97] 1) (specAdapter.charToByte [] 0)
      = GoResult.panic "key may match failed" ∧
    (gorocksdb_filterpolicy_key_may_match specAdapter faultyWorld 1 [97] 1 [] 0).result
      = GoResult.panic "key may match failed" ∧
    (gorocksdb_filterpolicy_key_may_match specAdapter faultyWorld 1 [97] 1 [] 0).result
      ≠ GoResult.ret (specAdapter.boolToChar true) :=
  ⟨rfl, rfl, rfl, by decide⟩

/-- C4, amended: when the handler registered under `id` panics in `KeyMayMatch` on the
decoded key and filter, `gorocksdb_filterpolicy_key_may_match` does not intercept it: the
handler is called once and the same panic leaves the callback, so no truth value is
returned. -/
theorem key_may_match_propagates_panic {Ptr : Type} (A : BufferAdapter Ptr) (w : World)
    (id : Int) (h : FilterPolicyHandler) (cKey : Ptr) (cKeyLen : Nat) (cFilter : Ptr)
    (cFilterLen : Nat) (v : String)
    (hreg : mapIndex w.filterHandlers id = some h)
    (hpanic : h.KeyMayMatch (A.charToByte cKey cKeyLen) (A.charToByte cFilter cFilterLen)
      = GoResult.panic v) :
    (gorocksdb_filterpolicy_key_may_match A w id cKey cKeyLen cFilter cFilterLen).result
      = GoResult.panic v ∧
    (∀ c : Nat,
      (gorocksdb_filterpolicy_key_may_match A w id cKey cKeyLen cFilter cFilterLen).result
        ≠ GoResult.ret c) ∧
    (gorocksdb_filterpolicy_key_may_match A w id cKey cKeyLen cFilter cFilterLen).events
      = [Event.handlerKeyMayMatch (A.charToByte cKey cKeyLen)
          (A.charToByte cFilter cFilterLen)] := by
  have hres :
      (gorocksdb_filterpolicy_key_may_match A w id cKey cKeyLen cFilter cFilterLen).result
        = GoResult.panic v := by
    simp only [gorocksdb_filterpolicy_key_may_match, hreg, hpanic]
  refine ⟨hres, ?_, ?_⟩
  · intro c hc
    rw [hres] at hc
    cases hc
  · simp only [gorocksdb_filterpolicy_key_may_match, hreg, hpanic]

/-- Witness of the amended C4 with the faulty handler. -/
theorem key_may_match_propagates_panic_witness :
    mapIndex faultyWorld.filterHandlers 1 = some faultyHandler ∧
    (gorocksdb_filterpolicy_key_may_match specAdapter faultyWorld 1 [97] 1 [] 0).result
      = GoResult.panic "key may match failed" :=
  ⟨rfl, (key_may_match_propagates_panic specAdapter faultyWorld 1 faultyHandler [97] 1 [] 0
    "key may match failed" rfl rfl).1⟩

/-- C5: when the handler registered under `id` panics in `CreateFilter` on the decoded keys,
`gorocksdb_filterpolicy_create_filter` ends with that panic: no buffer is returned and the
cell `*cDstLen` keeps the content it had before the call.  When the handler panics in
`Name`, `gorocksdb_filterpolicy_name` ends with that panic and returns no string. -/
theorem create_filter_and_name_fail_without_encoding {Ptr Keys Lens : Type}
    (A : BufferAdapter Ptr) (N : NativeLayer Ptr Keys Lens) (w : World) (id : Int)
    (h : FilterPolicyHandler) (cKeys : Keys) (cKeysLen : Lens) (cNumKeys : CInt)
    (cDstLen : Nat)
    (hreg : mapIndex w.filterHandlers id = some h) :
    (∀ v : String, 0 ≤ cNumKeys.val →
      h.CreateFilter (nativeKeys A N cKeys cKeysLen cNumKeys.val.toNat) = GoResult.panic v →
      (gorocksdb_filterpolicy_create_filter A N w id cKeys cKeysLen cNumKeys cDstLen).result
        = GoResult.panic v ∧
      (∀ F : Ptr,
        (gorocksdb_filterpolicy_create_filter A N w id cKeys cKeysLen cNumKeys cDstLen).result
          ≠ GoResult.ret F) ∧
      (gorocksdb_filterpolicy_create_filter A N w id cKeys cKeysLen cNumKeys cDstLen).dstLen
        = cDstLen) ∧
    (∀ v : String, h.Name = GoResult.panic v →
      (gorocksdb_filterpolicy_name A w id).result = GoResult.panic v ∧
      ∀ s : Ptr, (gorocksdb_filterpolicy_name A w id).result ≠ GoResult.ret s) := by
  constructor
  · intro v hn hcf
    have hout := create_filter_eq A N w id h cKeys cKeysLen cNumKeys cDstLen hreg hn
    rw [hcf] at hout
    simp only at hout
    rw [hout]
    refine ⟨rfl, ?_, rfl⟩
    intro F hF
    cases hF
  · intro v hname
    have hres : (gorocksdb_filterpolicy_name A w id).result = GoResult.panic v := by
      simp only [gorocksdb_filterpolicy_name, hreg, hname]
    refine ⟨hres, ?_⟩
    intro s hs
    rw [hres] at hs
    cases hs

/-- Witness of C5 with the faulty handler: three keys, output cell holding `77` before. -/
theorem create_filter_and_name_fail_without_encoding_witness :
    mapIndex faultyWorld.filterHandlers 1 = some faultyHandler ∧
    (gorocksdb_filterpolicy_create_filter specAdapter specNative faultyWorld 1
      [[97], [98], [99]] [1, 1, 1] three 77).result = GoResult.panic "create filter failed" ∧
    (gorocksdb_filterpolicy_create_filter specAdapter specNative faultyWorld 1
      [[97], [98], [99]] [1, 1, 1] three 77).dstLen = 77 ∧
    (gorocksdb_filterpolicy_name specAdapter faultyWorld 1).result
      = GoResult.panic "name failed" :=
  ⟨rfl,
    ((create_filter_and_name_fail_without_encoding specAdapter specNative faultyWorld 1
      faultyHandler [[97], [98], [99]] [1, 1, 1] three 77 rfl).1
        "create filter failed" (by decide) rfl).1,
    ((create_filter_and_name_fail_without_encoding specAdapter specNative faultyWorld 1
      faultyHandler [[97], [98], [99]] [1, 1, 1] three 77 rfl).1
        "create filter failed" (by decide) rfl).2.2,
    ((create_filter_and_name_fail_without_encoding specAdapter specNative faultyWorld 1
      faultyHandler [[97], [98], [99]] [1, 1, 1] three 77 rfl).2 "name failed" rfl).1⟩

/-- C6: for `h` registered under `id` and a count `n ≥ 0`,
`gorocksdb_filterpolicy_create_filter` reads the `n` native (pointer, length) pairs in index
order and then calls `h.CreateFilter` exactly once, with the list of exactly `n` keys whose
`i`-th element is `charToByte(keys[i], lens[i])`; when the handler returns `r`, the callback
writes `len(r)` through `cDstLen` and returns `byteToChar(r)`.  For `n = 0` nothing is read
natively and the handler receives the empty list. -/
theorem create_filter_decodes_calls_encodes {Ptr Keys Lens : Type} (A : BufferAdapter Ptr)
    (N : NativeLayer Ptr Keys Lens) (w : World) (id : Int) (h : FilterPolicyHandler)
    (cKeys : Keys) (cKeysLen : Lens) (cNumKeys : CInt) (cDstLen : Nat)
    (hreg : mapIndex w.filterHandlers id = some h) (hn : 0 ≤ cNumKeys.val) :
    (gorocksdb_filterpolicy_create_filter A N w id cKeys cKeysLen cNumKeys cDstLen).events
      = nativeReads cNumKeys.val.toNat ++
        [Event.handlerCreateFilter (nativeKeys A N cKeys cKeysLen cNumKeys.val.toNat)] ∧
    ((nativeKeys A N cKeys cKeysLen cNumKeys.val.toNat).length : Int) = cNumKeys.val ∧
    (∀ i : Nat, i < cNumKeys.val.toNat →
      (nativeKeys A N cKeys cKeysLen cNumKeys.val.toNat)[i]? =
        some (A.charToByte (N.gorocksdb_get_char_at_index cKeys (i : Int))
          (N.gorocksdb_get_int_at_index cKeysLen (i : Int)))) ∧
    (∀ r : Bytes,
      h.CreateFilter (nativeKeys A N cKeys cKeysLen cNumKeys.val.toNat) = GoResult.ret r →
      (gorocksdb_filterpolicy_create_filter A N w id cKeys cKeysLen cNumKeys cDstLen).result
        = GoResult.ret (A.byteToChar r) ∧
      (gorocksdb_filterpolicy_create_filter A N w id cKeys cKeysLen cNumKeys cDstLen).dstLen
        = r.length) ∧
    (cNumKeys.val = 0 →
      (gorocksdb_filterpolicy_create_filter A N w id cKeys cKeysLen cNumKeys cDstLen).events
        = [Event.handlerCreateFilter []]) := by
  have hout := create_filter_eq A N w id h cKeys cKeysLen cNumKeys cDstLen hreg hn
  have hev :
      (gorocksdb_filterpolicy_create_filter A N w id cKeys cKeysLen cNumKeys cDstLen).events
        = nativeReads cNumKeys.val.toNat ++
          [Event.handlerCreateFilter (nativeKeys A N cKeys cKeysLen cNumKeys.val.toNat)] := by
    rw [hout]
    cases h.CreateFilter (nativeKeys A N cKeys cKeysLen cNumKeys.val.toNat) <;> rfl
  refine ⟨hev, ?_, ?_, ?_, ?_⟩
  · simp only [nativeKeys, List.length_map, List.length_range]
    exact Int.toNat_of_nonneg hn
  · intro i hi
    simp [nativeKeys, List.getElem?_map, List.getElem?_range hi]
  · intro r hr
    rw [hr] at hout
    simp only at hout
    rw [hout]
    exact ⟨rfl, rfl⟩
  · intro hzero
    rw [hev, hzero]
    rfl

/-- Witness of C6 with the sample handler and the three keys `a`, `b`, `c`. -/
theorem create_filter_decodes_calls_encodes_witness :
    mapIndex sampleWorld.filterHandlers 1 = some sampleHandler ∧ 0 ≤ three.val ∧
    (gorocksdb_filterpolicy_create_filter specAdapter specNative sampleWorld 1
      [[97], [98], [99]] [1, 1, 1] three 77).events =
      [Event.gorocksdb_get_char_at_index 0, Event.gorocksdb_get_int_at_index 0,
       Event.gorocksdb_get_char_at_index 1, Event.gorocksdb_get_int_at_index 1,
       Event.gorocksdb_get_char_at_index 2, Event.gorocksdb_get_int_at_index 2,
       Event.handlerCreateFilter [[97], [98], [99]]] ∧
    (gorocksdb_filterpolicy_create_filter specAdapter specNative sampleWorld 1
      [[97], [98], [99]] [1, 1, 1] three 77).result = GoResult.ret [97, 98, 99] ∧
    (gorocksdb_filterpolicy_create_filter specAdapter specNative sampleWorld 1
      [[97], [98], [99]] [1, 1, 1] three 77).dstLen = 3 :=
  ⟨rfl, by decide,
    (create_filter_decodes_calls_encodes specAdapter specNative sampleWorld 1 sampleHandler
      [[97], [98], [99]] [1, 1, 1] three 77 rfl (by decide)).1,
    ((create_filter_decodes_calls_encodes specAdapter specNative sampleWorld 1 sampleHandler
      [[97], [98], [99]] [1, 1, 1] three 77 rfl (by decide)).2.2.2.1 [97, 98, 99] rfl).1,
    ((create_filter_decodes_calls_encodes specAdapter specNative sampleWorld 1 sampleHandler
      [[97], [98], [99]] [1, 1, 1] three 77 rfl (by decide)).2.2.2.1 [97, 98, 99] rfl).2⟩

/-- C7: let `NewFilterPolicy(h)` be called in a reachable state and let any operations follow.
When `h.Name()` returns `s`, `gorocksdb_filterpolicy_name` called with the id of that
registration calls `Name` once and returns `stringToChar(s)`: the name of `h`, whatever
handlers were registered before or after. -/
theorem name_returns_name_of_registered_handler {Ptr Keys Lens : Type} (A : BufferAdapter Ptr)
    (N : NativeLayer Ptr Keys Lens) (ops later : List (Op Ptr Keys Lens))
    (h : FilterPolicyHandler) (s : String) (hname : h.Name = GoResult.ret s) :
    (gorocksdb_filterpolicy_name A
      (run A N (NewFilterPolicy N (some h) (reach A N ops)).2 later)
      ((reach A N ops).filterNextId + 1)).result = GoResult.ret (A.stringToChar s) ∧
    (gorocksdb_filterpolicy_name A
      (run A N (NewFilterPolicy N (some h) (reach A N ops)).2 later)
      ((reach A N ops).filterNextId + 1)).events = [Event.handlerName] := by
  have hidx := binding_after_run A N ops later (some h)
  constructor <;> simp only [gorocksdb_filterpolicy_name, hidx, hname]

/-- Witness of C7: the sample handler, named `test_policy`, is registered second, after a
faulty handler and before another one; the callback returns the bytes of `test_policy`
followed by a zero byte. -/
theorem name_returns_name_of_registered_handler_witness :
    sampleHandler.Name = GoResult.ret "test_policy" ∧
    (gorocksdb_filterpolicy_name specAdapter
      (run specAdapter specNative
        (NewFilterPolicy specNative (some sampleHandler)
          (reach specAdapter specNative [Op.newFilterPolicy (some faultyHandler)])).2
        [Op.newFilterPolicy (some faultyHandler), Op.name 1])
      2).result =
      GoResult.ret [116, 101, 115, 116, 95, 112, 111, 108, 105, 99, 121, 0] :=
  ⟨rfl,
    (name_returns_name_of_registered_handler specAdapter specNative
      [Op.newFilterPolicy (some faultyHandler)]
      [Op.newFilterPolicy (some faultyHandler), Op.name 1] sampleHandler "test_policy" rfl).1⟩

/-- Counterexample to C8: `NewBloomFilter(2147483648)` hands `-2147483648` to the native Bloom
constructor, not `2147483648`. -/
theorem newBloomFilter_narrows_bitsPerKey :
    (NewBloomFilter specNative 2147483648 World.init).2.trace
      = [Event.rocksdb_filterpolicy_create_bloom (-2147483648)] ∧
    (NewBloomFilter specNative 2147483648 World.init).2.trace
      ≠ [Event.rocksdb_filterpolicy_create_bloom 2147483648] := by
  constructor
  · decide
  · decide

/-- C8, amended: `NewBloomFilter(bitsPerKey)` followed by `Destroy` of the policy it returned
leaves `filterHandlers` (its length and every binding) and `filterNextId` as they were; the
only calls made are the native Bloom constructor, with `C.int(bitsPerKey)`, and the native
release of the pointer it returned, and the policy ends with a nil pointer.  The value
`C.int(bitsPerKey)` is `bitsPerKey` itself when `-2^31 ≤ bitsPerKey < 2^31`, as for `10`. -/
theorem bloom_policy_leaves_registry_untouched {Ptr Keys Lens : Type}
    (N : NativeLayer Ptr Keys Lens) (bitsPerKey : Int) (w : World) :
    ((NewBloomFilter N bitsPerKey w).1.Destroy (NewBloomFilter N bitsPerKey w).2).2.filterHandlers
      = w.filterHandlers ∧
    mapLen
      ((NewBloomFilter N bitsPerKey w).1.Destroy (NewBloomFilter N bitsPerKey w).2).2.filterHandlers
      = mapLen w.filterHandlers ∧
    (∀ k : Int,
      mapIndex
        ((NewBloomFilter N bitsPerKey w).1.Destroy
          (NewBloomFilter N bitsPerKey w).2).2.filterHandlers k
        = mapIndex w.filterHandlers k) ∧
    ((NewBloomFilter N bitsPerKey w).1.Destroy (NewBloomFilter N bitsPerKey w).2).2.filterNextId
      = w.filterNextId ∧
    ((NewBloomFilter N bitsPerKey w).1.Destroy (NewBloomFilter N bitsPerKey w).2).2.trace
      = w.trace ++
        [Event.rocksdb_filterpolicy_create_bloom (toCInt bitsPerKey),
         Event.rocksdb_filterpolicy_destroy
           (N.rocksdb_filterpolicy_create_bloom w.trace (toCInt bitsPerKey))] ∧
    ((NewBloomFilter N bitsPerKey w).1.Destroy (NewBloomFilter N bitsPerKey w).2).1.c = nilPtr ∧
    (-2147483648 ≤ bitsPerKey → bitsPerKey < 2147483648 → toCInt bitsPerKey = bitsPerKey) ∧
    toCInt 10 = 10 := by
  refine ⟨rfl, rfl, fun _ => rfl, rfl, ?_, rfl, ?_, by decide⟩
  · simp [NewBloomFilter, FilterPolicy.Destroy, NewNativeFilterPolicy]
  · intro hlo hhi
    unfold toCInt
    omega

/-- C9: `p.Destroy()` hands the pointer `p` wraps to `rocksdb_filterpolicy_destroy`, as its
only call, and leaves `p` with the nil pointer, whatever the pointer was; the registry is not
touched.  Nothing guards a second call: `Destroy` on the same `p` again calls the native
release once more, now with the nil pointer. -/
theorem destroy_releases_and_nils (p : FilterPolicy) (w : World) :
    (p.Destroy w).2.trace = w.trace ++ [Event.rocksdb_filterpolicy_destroy p.c] ∧
    (p.Destroy w).1.c = nilPtr ∧
    (p.Destroy w).2.filterHandlers = w.filterHandlers ∧
    (p.Destroy w).2.filterNextId = w.filterNextId ∧
    ((p.Destroy w).1.Destroy (p.Destroy w).2).2.trace
      = w.trace ++ [Event.rocksdb_filterpolicy_destroy p.c,
          Event.rocksdb_filterpolicy_destroy nilPtr] ∧
    ((p.Destroy w).1.Destroy (p.Destroy w).2).1.c = nilPtr := by
  refine ⟨rfl, rfl, rfl, rfl, ?_, rfl⟩
  simp [FilterPolicy.Destroy]

end Gorocksdb
